import Mathlib

/-!
# Verification of the error-replay debug adapter

A shallow embedding of `packages/adapter/src/index.ts` (the replay runtime,
the protocol session, the variable resolver/cache and the value-preview
formatter) together with theorems settling the frozen claims about it.

Conventions of the embedding:
* TypeScript `undefined` on an optional field is `Option.none`.
* JavaScript truthiness checks on strings (`!s`) test both absence and the
  empty string, and are translated as such.
* The asynchronous methods are all sequential in the adapter (each `await`ed
  before the next use); they are embedded as pure state-passing functions.
* The `node:path` and JS `Number` built-ins are external to the repository;
  they are modelled below by faithful executable implementations of their
  documented behaviour on the POSIX platform / on plain decimal input.
  String manipulation is done on the character lists underneath `String` so
  that every definition evaluates by kernel reduction.
-/

namespace ErrorReplay

/-! ## The `node:path` model (POSIX) -/

/-- Splits a character list at every occurrence of `sep` (occurrences are
dropped; adjacent separators yield empty groups, like `String.split`). -/
def splitChar (sep : Char) : List Char → List (List Char)
  | [] => [[]]
  | c :: rest =>
    match splitChar sep rest with
    | g :: gs => if c = sep then [] :: g :: gs else (c :: g) :: gs
    | [] => [[]]

/-- One fold step of POSIX path segment resolution: drop empty and `.`
segments, let `..` pop a previous real segment (or survive at the head of a
relative path), keep everything else.  `abs` tells whether the whole path is
absolute, in which case `..` at the root is dropped. -/
def normStep (abs : Bool) (acc : List String) (seg : String) : List String :=
  if seg = "" ∨ seg = "." then acc
  else if seg = ".." then
    match acc.getLast? with
    | some last => if last = ".." then acc ++ [".."] else acc.dropLast
    | none => if abs then [] else [".."]
  else acc ++ [seg]

/-- Model of `path.normalize` from `node:path` (POSIX rules: collapse
separators, resolve `.` and `..`, keep a trailing separator, return `.` for
an empty result).  `node:path` is a platform library, not part of this
repository; this is an executable model of its documented behaviour. -/
def pathNormalize (p : String) : String :=
  let cs := p.data
  if cs = [] then "."
  else
    let abs : Bool := cs.head? = some '/'
    let trail : Bool := cs.getLast? = some '/' ∧ cs ≠ ['/']
    let segs := ((splitChar '/' cs).map String.mk).foldl (normStep abs) []
    let body := String.intercalate "/" segs
    let core := if abs then "/" ++ body else if body = "" then "." else body
    if trail ∧ core ≠ "/" ∧ core ≠ "." then core ++ "/" else core

example : pathNormalize "/a/b/../c" = "/a/c" := by decide
example : pathNormalize "" = "." := by decide
example : pathNormalize "/demo/app.js" = "/demo/app.js" := by decide
example : pathNormalize "a//b/./c/" = "a/b/c/" := by decide

/-! ## The JS `Number` model and `coerceValue` -/

/-- A finite JS number in canonical scientific form `mantissa * 10 ^ exp10`,
with the mantissa never divisible by 10 (and `0 * 10 ^ 0` for zero), so that
equal decimal values have equal representations. -/
structure DecNum where
  mantissa : Int
  exp10 : Int
deriving DecidableEq, Repr

/-- Numeric value of a list of ASCII digits. -/
def digitsVal (cs : List Char) : Nat :=
  cs.foldl (fun a c => a * 10 + (c.toNat - 48)) 0

/-- Canonical decimal number from a digit string, a sign and an exponent:
trailing zero digits move into the exponent, so equal values coincide. -/
def canonDigits (neg : Bool) (digits : List Char) (exp : Int) : DecNum :=
  let stripped := (digits.reverse.dropWhile (fun c => c = '0')).reverse
  let zeros : Nat := digits.length - stripped.length
  if stripped = [] then ⟨0, 0⟩
  else
    let m : Int := digitsVal stripped
    ⟨if neg then -m else m, exp + zeros⟩

/-- A JavaScript primitive value as stored in a `VariableNode.value` slot
(`string | number | boolean | null`; `undefined` is `Option.none` around it). -/
inductive JSValue where
  | vStr (s : String)
  | vNum (q : DecNum)
  | vBool (b : Bool)
  | vNull
deriving DecidableEq, Repr

/-- Whitespace-trim on both ends of a character list. -/
def trimChars (cs : List Char) : List Char :=
  ((cs.dropWhile Char.isWhitespace).reverse.dropWhile Char.isWhitespace).reverse

/-- Model of the JS `Number(string)` conversion on ordinary decimal input
(optional sign, integer and/or fractional digits, optional exponent; a
whitespace-only string is `0`).  `none` stands for `NaN`.  Exotic forms
(hex/binary literals, `Infinity`) are outside the inputs this program
feeds it and are mapped to `NaN`. -/
def jsToNumber (s : String) : Option DecNum :=
  let t := trimChars s.data
  if t = [] then some ⟨0, 0⟩
  else
    let (neg, r0) :=
      match t with
      | '-' :: r => (true, r)
      | '+' :: r => (false, r)
      | r => (false, r)
    let intPart := r0.takeWhile Char.isDigit
    let r1 := r0.dropWhile Char.isDigit
    let (fracPart, r2) :=
      match r1 with
      | '.' :: r => (r.takeWhile Char.isDigit, r.dropWhile Char.isDigit)
      | r => ([], r)
    let expo : Option (List Char) :=
      match r2 with
      | [] => some []
      | 'e' :: r | 'E' :: r =>
        match r with
        | '-' :: d => some ('-' :: d)
        | '+' :: d => some d
        | d => some d
      | _ => none
    match expo with
    | none => none
    | some esigned =>
      let (eneg, edigits) :=
        match esigned with
        | '-' :: d => (true, d)
        | d => (false, d)
      if intPart = [] ∧ fracPart = [] then none
      else if ¬ (edigits.all Char.isDigit) then none
      else if r2 ≠ [] ∧ edigits = [] then none
      else
        let e : Int := if eneg then -(digitsVal edigits : Int)
          else (digitsVal edigits : Int)
        some (canonDigits neg (intPart ++ fracPart) (e - fracPart.length))

example : jsToNumber "42" = some ⟨42, 0⟩ := by decide
example : jsToNumber "null" = none := by decide
example : jsToNumber "" = some ⟨0, 0⟩ := by decide
example : jsToNumber "1.5" = some ⟨15, -1⟩ := by decide
example : jsToNumber "1.50" = some ⟨15, -1⟩ := by decide
example : jsToNumber "-2e3" = some ⟨-2, 3⟩ := by decide

/-- `coerceValue` from `index.ts`: interprets a recorded preview text under a
declared type.  An absent preview returns the declared type name (possibly
`undefined`); a `number` type parses the preview (keeping the raw text when
the parse is `NaN`); a `boolean` type maps the literal `true`/`false` texts;
any remaining preview equal to `"null"` becomes the null value; everything
else is kept as raw text. -/
def coerceValue (valuePreview : Option String) (type : Option String) :
    Option JSValue :=
  match valuePreview with
  | none => type.map JSValue.vStr
  | some v =>
    if type = some "number" then
      match jsToNumber v with
      | none => some (JSValue.vStr v)
      | some n => some (JSValue.vNum n)
    else if type = some "boolean" ∧ v = "true" then some (JSValue.vBool true)
    else if type = some "boolean" ∧ v = "false" then some (JSValue.vBool false)
    else if v = "null" then some JSValue.vNull
    else some (JSValue.vStr v)

example : coerceValue (some "42") (some "number") = some (.vNum ⟨42, 0⟩) := by
  decide
example : coerceValue (some "false") (some "boolean") = some (.vBool false) := by
  decide
example : coerceValue (some "null") (some "string") = some .vNull := by decide
example : coerceValue none (some "string") = some (.vStr "string") := by decide

/-! ## Variable trees

`VariableNode` is the uniform tree shape; `VariablePayload` is the raw
recorded payload from `types.ts`.  JS `Record`s are embedded as ordered
association lists with unique keys. -/

/-- `Map.get` on an association list (keys are unique by construction). -/
def mapFind {α : Type} : List (String × α) → String → Option α
  | [], _ => none
  | e :: rest, k => if e.1 == k then some e.2 else mapFind rest k

/-- `Map.set` on an association list: replaces the entry in place when the
key is present, appends otherwise. -/
def mapSet {α : Type} : List (String × α) → String → α → List (String × α)
  | [], k, v => [(k, v)]
  | e :: rest, k, v =>
    if e.1 == k then (k, v) :: rest else e :: mapSet rest k v

/-- The `VariableNode` interface of `index.ts`: optional type label, optional
scalar value, optional map of child nodes. -/
inductive VariableNode where
  | mk (type : Option String) (value : Option JSValue)
      (fields : Option (List (String × VariableNode)))

/-- The `type` slot of a node. -/
def VariableNode.type : VariableNode → Option String
  | .mk t _ _ => t

/-- The `value` slot of a node (`none` is JS `undefined`). -/
def VariableNode.value : VariableNode → Option JSValue
  | .mk _ v _ => v

/-- The `fields` slot of a node. -/
def VariableNode.fields : VariableNode → Option (List (String × VariableNode))
  | .mk _ _ f => f

/-- The `VariablePayload` shape of `types.ts` (the slots `index.ts` reads:
`type`, `value`, `isNull`, `elements`, `entries`, `fields`). -/
inductive VariablePayload where
  | mk (type : Option String) (value : Option String) (isNull : Bool)
      (elements : Option (List VariablePayload))
      (entries : Option (List (VariablePayload × VariablePayload)))
      (fields : Option (List (String × VariablePayload)))

/-- The `value` slot of a payload. -/
def VariablePayload.value : VariablePayload → Option String
  | .mk _ v _ _ _ _ => v

/-- The `fields` slot of a payload. -/
def VariablePayload.fields :
    VariablePayload → Option (List (String × VariablePayload))
  | .mk _ _ _ _ _ f => f

/-- `extractKeyFromPayload` from `index.ts`: a map entry's key payload turns
into a string key — its scalar value if present, else an identifying field
(`id`, `name` or `key`), else the ordinal position. -/
def extractKeyFromPayload (payload : Option VariablePayload) (idx : Nat) :
    String :=
  match payload with
  | none => toString idx
  | some p =>
    match p.value with
    | some v => v
    | none =>
      match p.fields with
      | some flds =>
        let ident :=
          ((mapFind flds "id").bind VariablePayload.value).orElse fun _ =>
            ((mapFind flds "name").bind VariablePayload.value).orElse fun _ =>
              (mapFind flds "key").bind VariablePayload.value
        match ident with
        | some s => s
        | none => toString idx
      | none => toString idx

mutual

/-- `toVariableNode` from `index.ts`: normalizes one raw payload into the
uniform node shape (null, scalar, ordered elements, map entries, named
fields, bare type — in that priority order). -/
def toVariableNode : VariablePayload → VariableNode
  | .mk t v nul els ents flds =>
    if nul then .mk (some (t.getD "null")) (some .vNull) none
    else
      match v with
      | some value => .mk t (coerceValue (some value) t) none
      | none =>
        match els with
        | some list =>
          .mk (some (t.getD "array")) none (some (elementsToFields 0 list))
        | none =>
          match ents with
          | some pairs =>
            .mk (some (t.getD "map")) none (some (entriesToFields 0 pairs))
          | none =>
            match flds with
            | some fs => .mk (some (t.getD "object")) none
                (some (namedFieldsToFields fs))
            | none => .mk t none none

/-- The `elements.forEach` loop: children keyed by their decimal index. -/
def elementsToFields (idx : Nat) :
    List VariablePayload → List (String × VariableNode)
  | [] => []
  | el :: rest => (toString idx, toVariableNode el) :: elementsToFields (idx + 1) rest

/-- The `entries.forEach` loop: children keyed by the extracted entry key. -/
def entriesToFields (idx : Nat) :
    List (VariablePayload × VariablePayload) → List (String × VariableNode)
  | [] => []
  | (k, v) :: rest =>
    (extractKeyFromPayload (some k) idx, toVariableNode v) ::
      entriesToFields (idx + 1) rest

/-- The `Object.entries(payload.fields)` loop. -/
def namedFieldsToFields :
    List (String × VariablePayload) → List (String × VariableNode)
  | [] => []
  | (k, v) :: rest => (k, toVariableNode v) :: namedFieldsToFields rest

end

/-- `toVariableMap` from `index.ts`: normalizes every payload of a record. -/
def toVariableMap (record : List (String × VariablePayload)) :
    List (String × VariableNode) :=
  record.map (fun e => (e.1, toVariableNode e.2))

/-! ## The value-preview formatter -/

/-- The `/^-?\d+(\.\d+)?$/` test of `looksNumeric`. -/
def looksNumeric (value : String) : Bool :=
  let body := fun (cs : List Char) =>
    let ds := cs.takeWhile Char.isDigit
    let rest := cs.dropWhile Char.isDigit
    !ds.isEmpty &&
      (match rest with
       | [] => true
       | '.' :: fs => !fs.isEmpty && fs.all Char.isDigit
       | _ => false)
  match value.data with
  | '-' :: rest => body rest
  | l => body l

example : looksNumeric "-12.50" = true := by decide
example : looksNumeric "1a" = false := by decide
example : looksNumeric "a" = false := by decide

/-- Model of JS `String(number)` on the canonical decimal numbers arising
here: plain positional notation (JS switches to exponential form only far
outside the magnitudes this adapter displays). -/
def jsNumToString (q : DecNum) : String :=
  let sign := if q.mantissa < 0 then "-" else ""
  let digits := (toString q.mantissa.natAbs).data
  if 0 ≤ q.exp10 then
    sign ++ String.mk (digits ++ List.replicate q.exp10.toNat '0')
  else
    let k := (-q.exp10).toNat
    if k < digits.length then
      sign ++ String.mk (digits.take (digits.length - k)) ++ "." ++
        String.mk (digits.drop (digits.length - k))
    else
      sign ++ "0." ++ String.mk (List.replicate (k - digits.length) '0' ++ digits)

example : jsNumToString ⟨15, -1⟩ = "1.5" := by decide
example : jsNumToString ⟨-3, 2⟩ = "-300" := by decide

/-- `formatFunctionPreview` from `index.ts`: first line of the source text
(the whole text when the first line is empty), truncated to 80 characters
with an ellipsis. -/
def formatFunctionPreview (raw : String) : String :=
  let cs := raw.data
  let seg := cs.takeWhile (fun c => c ≠ '\n')
  let seg := if seg.getLast? = some '\r' then seg.dropLast else seg
  let firstLine := if seg = [] then cs else seg
  if firstLine.length > 80 then String.mk (firstLine.take 77) ++ "…"
  else String.mk firstLine

/-- `formatPrimitive` from `index.ts`. -/
def formatPrimitive (node : VariableNode) : String :=
  match node.value with
  | some .vNull => "null"
  | none => node.type.getD "undefined"
  | some (.vStr s) =>
    if node.type = some "object" then (if s = "Object" then "\x7b…\x7d" else s)
    else if node.type = some "function" then formatFunctionPreview s
    else if looksNumeric s then
      match jsToNumber s with
      | some n => jsNumToString n
      | none => s
    else s
  | some (.vNum n) => jsNumToString n
  | some (.vBool b) => if b then "true" else "false"

/-- `isArrayLike` from `index.ts`: nonempty keys, all decimal numerals. -/
def isArrayLike (keys : List String) : Bool :=
  !keys.isEmpty && keys.all (fun k => !k.data.isEmpty && k.data.all Char.isDigit)

/-- `parseInt(k, 10)` restricted to keys passing the `/^\d+$/` test. -/
def parseDecimalKey (k : String) : Option Nat :=
  if !k.data.isEmpty && k.data.all Char.isDigit then some (digitsVal k.data)
  else none

/-- `inferArrayLength` from `index.ts`: one more than the largest numeric
key, falling back to the key count when no key is numeric. -/
def inferArrayLength (keys : List String) : Nat :=
  if keys.isEmpty then 0
  else
    let numeric := keys.filterMap parseDecimalKey
    if numeric.isEmpty then keys.length
    else numeric.foldl Nat.max 0 + 1

example : inferArrayLength ["0", "2"] = 3 := by decide

/-- `previewChild` from `index.ts`: one-level-deep preview of a child. -/
def previewChild (node : Option VariableNode) : String :=
  match node with
  | none => "undefined"
  | some n =>
    match n.value with
    | some _ => formatPrimitive n
    | none =>
      let fields := n.fields.getD []
      let keys := fields.map Prod.fst
      if keys.isEmpty then n.type.getD "value"
      else if isArrayLike keys then
        "Array(" ++ toString (inferArrayLength keys) ++ ")"
      else "\x7b…\x7d"

/-- `formatArrayPreview` from `index.ts`: `(<length>) [<up to 3 children>]`. -/
def formatArrayPreview (fields : List (String × VariableNode)) : String :=
  let length := inferArrayLength (fields.map Prod.fst)
  let maxN := min length 3
  let preview := (List.range maxN).map
    (fun i => previewChild (mapFind fields (toString i)))
  let preview := if maxN < length then preview ++ ["…"] else preview
  "(" ++ toString length ++ ") [" ++ (String.intercalate ", " preview ++ "]")

/-- `formatObjectPreview` from `index.ts`: `{ <up to 3 entries> }`. -/
def formatObjectPreview (fields : List (String × VariableNode)) : String :=
  let keys := fields.map Prod.fst
  let previews := (keys.take 3).map
    (fun k => k ++ ": " ++ previewChild (mapFind fields k))
  let previews := if 3 < keys.length then previews ++ ["…"] else previews
  "\x7b " ++ (String.intercalate ", " previews ++ " \x7d")

/-- `formatNodeValue` from `index.ts`: scalar, array-shaped, object-shaped
or bare-type preview of a node. -/
def formatNodeValue (node : VariableNode) : String :=
  match node.value with
  | some _ => formatPrimitive node
  | none =>
    let fields := node.fields.getD []
    let keys := fields.map Prod.fst
    if keys.isEmpty then node.type.getD "value"
    else if isArrayLike keys then formatArrayPreview fields
    else formatObjectPreview fields

example :
    formatNodeValue (.mk none none (some
      [("0", .mk none (some (.vStr "a")) none),
       ("2", .mk none (some (.vStr "b")) none)])) = "(3) [a, undefined, b]" := by
  decide

/-! ## The replay runtime: frames and the cursor state machine -/

/-- The `StackTraceToken` union of `types.ts`.  Coordinate tokens nest their
payload under a `value` field; the flattened constructor arguments here are
that nested payload. -/
inductive StackTraceToken where
  | repositoryCoordinate (uriPath : String) (location : Option Nat)
  | runtimeCoordinate (uriPath : String) (location : Option Nat)
  | packageName (value : String)
  | className (value : String)
  | functionName (value : String)
  | lineNumber (value : Nat)
  | characterNumber (value : Nat)
  | isTargetFrame (value : Bool)
  | unknown (unknownKind : String)
deriving DecidableEq, Repr

/-- `buildFrames` reads `coord.uri.path` directly on a coordinate token, but
every declared token shape keeps its coordinate nested under `value`; the JS
property read is therefore `undefined` for each declared token. -/
def tokenUriPath : StackTraceToken → Option String := fun _ => none

/-- `buildFrames` reads `coord.location` directly on a coordinate token; as
with `tokenUriPath`, the declared token shapes make this read `undefined`. -/
def tokenLocation : StackTraceToken → Option Nat := fun _ => none

/-- The `StackTraceFrame` input shape of `types.ts` (the slots `index.ts`
reads). -/
structure StackTraceFrame where
  id : String
  content : String
  tokens : List StackTraceToken := []
  file : Option String := none
  function : Option String := none
  line : Option Nat := none
  column : Option Nat := none
  snapshotId : Option String := none
  snapshot_id : Option String := none
deriving DecidableEq, Repr

/-- `extractRuntimeCoordinate` from `index.ts`: the first
`runtimeCoordinate` token, else the first `repositoryCoordinate` token. -/
def extractRuntimeCoordinate (frame : StackTraceFrame) :
    Option StackTraceToken :=
  match frame.tokens.find? (fun t =>
      match t with
      | .runtimeCoordinate _ _ => true
      | _ => false) with
  | some t => some t
  | none =>
    frame.tokens.find? (fun t =>
      match t with
      | .repositoryCoordinate _ _ => true
      | _ => false)

/-- `extractFunctionName` from `index.ts`: the value of the first
`functionName` token. -/
def extractFunctionName (frame : StackTraceFrame) : Option String :=
  (frame.tokens.find? (fun t =>
      match t with
      | .functionName _ => true
      | _ => false)).bind
    (fun t =>
      match t with
      | .functionName v => some v
      | _ => none)

/-- `normalizeFilePath` from `index.ts`: absent or empty paths become
`undefined`; a `file://` scheme is stripped; the remainder is normalized. -/
def normalizeFilePath : Option String → Option String
  | none => none
  | some s =>
    if s.data.isEmpty then none
    else if s.data.take 7 = "file://".data then
      some (pathNormalize (String.mk (s.data.drop 7)))
    else some (pathNormalize s)

/-- The normalized `ReplayFrame` entity of `index.ts`. -/
structure ReplayFrame where
  id : Nat
  name : String
  file : Option String
  line : Nat
  column : Nat
  snapshotId : Option String
deriving DecidableEq, Repr

/-- `buildFrames` from `index.ts`: per-frame normalization (file and line
resolution with the coordinate-token fallback, 1-based coordinates, snapshot
id, display name), then a reversal so that internal index 0 is the outermost
frame and the last internal index is the crash site. -/
def buildFrames (stackFrames : List StackTraceFrame) : List ReplayFrame :=
  (stackFrames.enum.map (fun p =>
    let idx := p.1
    let frame := p.2
    let runtimeCoordinate := extractRuntimeCoordinate frame
    let file := (normalizeFilePath frame.file).orElse fun _ =>
      normalizeFilePath (runtimeCoordinate.bind tokenUriPath)
    let line :=
      match frame.line with
      | some l => l + 1
      | none =>
        match runtimeCoordinate.bind tokenLocation with
        | some loc => loc + 1
        | none => 1
    let column := match frame.column with | some c => c + 1 | none => 1
    let snapshotId := frame.snapshotId.orElse fun _ => frame.snapshot_id
    let name := ((frame.function.orElse fun _ =>
      extractFunctionName frame)).getD frame.content
    ReplayFrame.mk idx name file line column snapshotId)).reverse

/-- JS truthiness of an optional string (`undefined` and `""` are falsy). -/
def truthyStr (o : Option String) : Bool :=
  match o with
  | some s => !s.data.isEmpty
  | none => false

/-- `findInitialFrame` from `index.ts`: scan from the crash site outward for
the first frame with a (truthy) snapshot id, defaulting to the crash site;
`0` for an empty frame list. -/
def findInitialFrame (frames : List ReplayFrame) : Int :=
  if frames.isEmpty then 0
  else
    match frames.reverse.findIdx? (fun f => truthyStr f.snapshotId) with
    | some idx => ((frames.length - 1 - idx : Nat) : Int)
    | none => ((frames.length - 1 : Nat) : Int)

/-- The mutable runtime state of a `ReplayRuntime` instance: the immutable
internal frame list, the breakpoint store and the cursor. -/
structure RuntimeState where
  frames : List ReplayFrame
  breakpoints : List (String × List Nat)
  cursor : Int
deriving DecidableEq, Repr

/-- The `ReplayRuntime` constructor: build the frame list, start with no
breakpoints, place the initial cursor. -/
def mkRuntime (stackFrames : List StackTraceFrame) : RuntimeState :=
  let frames := buildFrames stackFrames
  RuntimeState.mk frames [] (findInitialFrame frames)

/-- `isTerminated` from `index.ts`: the cursor is at or past the frame count,
or negative. -/
def isTerminated (rt : RuntimeState) : Bool :=
  decide ((rt.frames.length : Int) ≤ rt.cursor) || decide (rt.cursor < 0)

/-- JS array indexing with an `Int` index (negative indices read
`undefined`). -/
def frameAt (frames : List ReplayFrame) (i : Int) : Option ReplayFrame :=
  if i < 0 then none else frames.get? i.toNat

/-- `hitsBreakpoint` from `index.ts`: the frame has a (truthy) file whose
normalized form is a stored path, and its line is in that path's set. -/
def hitsBreakpoint (bps : List (String × List Nat))
    (frame : Option ReplayFrame) : Bool :=
  match frame with
  | none => false
  | some f =>
    match f.file with
    | none => false
    | some file =>
      if file.data.isEmpty then false
      else
        match mapFind bps (pathNormalize file) with
        | none => false
        | some set => set.contains f.line

/-- `findNextBreakpointIndex` from `index.ts`: the first index `i` from
`startIdx` up to the last frame whose frame hits a breakpoint, `-1` if none
(indices below zero cannot hit: they read an `undefined` frame). -/
def findNextBreakpointIndex (rt : RuntimeState) (startIdx : Int) : Int :=
  match (List.range rt.frames.length).findIdx? (fun (i : Nat) =>
      decide (startIdx ≤ (i : Int)) &&
        hitsBreakpoint rt.breakpoints (rt.frames.get? i)) with
  | some i => (i : Int)
  | none => -1

/-- The `StepResult` shape of `index.ts`. -/
structure StepResult where
  terminated : Bool := false
  stopped : Bool := false
  reason : Option String := none
deriving DecidableEq, Repr

/-- `stepOnce` from `index.ts`: advance the cursor by one; past the last
index this terminates, otherwise the stop reason is `breakpoint` on a
breakpoint hit and the supplied reason (default `step`) otherwise. -/
def stepOnce (rt : RuntimeState) (reason : Option String) :
    RuntimeState × StepResult :=
  if (rt.frames.length : Int) ≤ rt.cursor + 1 then
    ({ rt with cursor := rt.frames.length }, { terminated := true })
  else if hitsBreakpoint rt.breakpoints (frameAt rt.frames (rt.cursor + 1)) then
    ({ rt with cursor := rt.cursor + 1 },
      { stopped := true, reason := some "breakpoint" })
  else
    ({ rt with cursor := rt.cursor + 1 },
      { stopped := true, reason := some (reason.getD "step") })

/-- `continueExecution` from `index.ts`: jump to the next breakpoint hit
strictly past the cursor, or terminate. -/
def continueExecution (rt : RuntimeState) : RuntimeState × StepResult :=
  if findNextBreakpointIndex rt (rt.cursor + 1) = -1 then
    ({ rt with cursor := rt.frames.length }, { terminated := true })
  else
    ({ rt with cursor := findNextBreakpointIndex rt (rt.cursor + 1) },
      { stopped := true, reason := some "breakpoint" })

/-- `setCursorByFrameId` from `index.ts`: jump to the frame with this id;
no-op when the id is unknown. -/
def setCursorByFrameId (rt : RuntimeState) (frameId : Nat) : RuntimeState :=
  match rt.frames.findIdx? (fun f => f.id == frameId) with
  | some idx => { rt with cursor := (idx : Int) }
  | none => rt

/-- The `const normalizedFile` of `setCursorByLocation`: a falsy path is
dropped, otherwise it is normalized. -/
def normalizedStartFile (filePath : Option String) : Option String :=
  match filePath with
  | some p => if p.data.isEmpty then none else some (pathNormalize p)
  | none => none

/-- `setCursorByLocation` from `index.ts`: jump to the first frame matching
the (optional) normalized path and the line; no-op without a line, on an
empty frame list, or when nothing matches. -/
def setCursorByLocation (rt : RuntimeState) (filePath : Option String)
    (line : Option Nat) : RuntimeState :=
  match line with
  | none => rt
  | some ln =>
    if rt.frames.isEmpty then rt
    else
      match rt.frames.findIdx? (fun f =>
          (match normalizedStartFile filePath with
           | some nf => pathNormalize (f.file.getD "") == nf
           | none => true) && f.line == ln) with
      | some idx => { rt with cursor := (idx : Int) }
      | none => rt

/-- `new Set(lines)` then `Array.from`: deduplication keeping first
occurrences in order. -/
def jsSetOfList (l : List Nat) : List Nat :=
  l.foldl (fun acc x => if x ∈ acc then acc else acc ++ [x]) []

/-- `setBreakpoints` from `index.ts`: a falsy path returns `[]` and stores
nothing; otherwise the normalized path's line set is replaced wholesale. -/
def setBreakpoints (rt : RuntimeState) (sourcePath : Option String)
    (lines : List Nat) : RuntimeState × List Nat :=
  match sourcePath with
  | none => (rt, [])
  | some p =>
    if p.data.isEmpty then (rt, [])
    else
      let normalized := pathNormalize p
      let uniqueLines := jsSetOfList lines
      ({ rt with breakpoints := mapSet rt.breakpoints normalized uniqueLines },
        uniqueLines)

/-- `getOrderedFrames` from `index.ts`: frames from index 0 through the
cursor, innermost-first. -/
def getOrderedFrames (rt : RuntimeState) : List ReplayFrame :=
  if rt.frames.isEmpty || decide (rt.cursor < 0) then []
  else (rt.frames.take (rt.cursor.toNat + 1)).reverse

/-! ## The variable resolver and cache

The loader (`dataSource.loadVariables`) is an external collaborator; it is a
parameter of type `VarLoader` that either resolves (`Except.ok`, possibly
with no data) or rejects (`Except.error`).  The `Except` plumbing carries a
JS exception: a rejection that is not caught would surface as `.error`.  The
ghost `loaderCalls` log records each loader invocation for counting. -/

/-- The `Variables` result shape of `types.ts` (the slots `index.ts`
reads). -/
structure RawVariables where
  locals : Option (List (String × VariablePayload)) := none
  arguments : Option (List (String × VariablePayload)) := none

/-- The `SnapshotCaptures` shape of `index.ts`. -/
structure SnapshotCaptures where
  locals : List (String × VariableNode)
  arguments : List (String × VariableNode)

/-- The `{ locals: {}, arguments: {} }` fallback bundle. -/
def emptyCaptures : SnapshotCaptures := SnapshotCaptures.mk [] []

/-- `normalizeVariables` from `index.ts`. -/
def normalizeVariables (vars : Option RawVariables) : SnapshotCaptures :=
  SnapshotCaptures.mk
    (toVariableMap ((vars.bind RawVariables.locals).getD []))
    (toVariableMap ((vars.bind RawVariables.arguments).getD []))

/-- The external `loadVariables` operation. -/
abbrev VarLoader : Type := String → Except Unit (Option RawVariables)

/-- The mutable variable-cache state of a `ReplayRuntime` plus the ghost log
of loader invocations. -/
structure VarState where
  cache : List (String × SnapshotCaptures)
  loaderCalls : List String

/-- The cache at session start: empty, no loader call yet. -/
def initVarState : VarState := VarState.mk [] []

/-- `fetchVariables` from `index.ts`: invoke the loader and normalize; the
`try { } catch { }` turns a rejection into the empty bundle. -/
def fetchVariables (loader : VarLoader) (st : VarState) (snapshotId : String) :
    Except Unit (SnapshotCaptures × VarState) :=
  let st1 := { st with loaderCalls := st.loaderCalls ++ [snapshotId] }
  match loader snapshotId with
  | .ok result => .ok (normalizeVariables result, st1)
  | .error _ => .ok (emptyCaptures, st1)

/-- `getOrLoadVariables` from `index.ts`: return the cached bundle, or fetch,
cache and return it. -/
def getOrLoadVariables (loader : VarLoader) (st : VarState)
    (snapshotId : String) : Except Unit (SnapshotCaptures × VarState) :=
  match mapFind st.cache snapshotId with
  | some cached => .ok (cached, st)
  | none =>
    match fetchVariables loader st snapshotId with
    | .ok (vars, st') =>
      .ok (vars, { st' with cache := mapSet st'.cache snapshotId vars })
    | .error e => .error e

/-- `getLocals` from `index.ts`: `{}` for a falsy snapshot id, else the
`locals` half of the loaded bundle. -/
def getLocals (loader : VarLoader) (st : VarState) (snapshotId : Option String) :
    Except Unit (List (String × VariableNode) × VarState) :=
  match snapshotId with
  | none => .ok ([], st)
  | some sid =>
    if sid.data.isEmpty then .ok ([], st)
    else
      match getOrLoadVariables loader st sid with
      | .ok (vars, st') => .ok (vars.locals, st')
      | .error e => .error e

/-- `getArguments` from `index.ts`: `{}` for a falsy snapshot id, else the
`arguments` half of the loaded bundle. -/
def getArguments (loader : VarLoader) (st : VarState)
    (snapshotId : Option String) :
    Except Unit (List (String × VariableNode) × VarState) :=
  match snapshotId with
  | none => .ok ([], st)
  | some sid =>
    if sid.data.isEmpty then .ok ([], st)
    else
      match getOrLoadVariables loader st sid with
      | .ok (vars, st') => .ok (vars.arguments, st')
      | .error e => .error e

/-- A sequence of sequential variable queries (each one completed before the
next starts), threading the cache state; a failed query would leave the
state unchanged. -/
def runQueries (loader : VarLoader) (st : VarState) :
    List String → VarState
  | [] => st
  | q :: rest =>
    match getOrLoadVariables loader st q with
    | .ok (_, st') => runQueries loader st' rest
    | .error _ => runQueries loader st rest

/-! ## The protocol session

`ErrorReplaySession` after a successful launch: the runtime state plus the
`terminationMessageSent` flag.  Requests map to handlers exactly as the
`*Request` methods of `index.ts` do; the outbound `OutputEvent`s (the
summary line and console notes), `StoppedEvent`s and `TerminatedEvent`s are
collected as an event trace. -/

/-- Outbound events a request handler can emit. -/
inductive DapEvent where
  | outputSummary
  | terminatedSignal
  | stoppedWith (reason : String)
  | consoleNote (msg : String)
deriving DecidableEq, Repr, BEq

/-- Session state after a successful launch. -/
structure SessionState where
  rt : RuntimeState
  terminationMessageSent : Bool
deriving DecidableEq, Repr

/-- `emitTerminationOutput` from `index.ts`: emit the summary line only when
it has not been sent, then latch the flag. -/
def emitTerminationOutput (s : SessionState) : SessionState × List DapEvent :=
  if s.terminationMessageSent then (s, [])
  else ({ s with terminationMessageSent := true }, [.outputSummary])

/-- The `allowedReasons` set of `postStep`. -/
def allowedReasons : List String :=
  ["step", "breakpoint", "exception", "pause", "entry", "goto",
    "function breakpoint", "data breakpoint", "instruction breakpoint"]

/-- `postStep` from `index.ts`: a terminated step emits the summary (once)
and the terminate signal; otherwise a stop with the sanitized reason. -/
def postStep (s : SessionState) (result : StepResult) :
    SessionState × List DapEvent :=
  if result.terminated then
    ((emitTerminationOutput s).1,
      (emitTerminationOutput s).2 ++ [.terminatedSignal])
  else
    let reason :=
      match result.reason with
      | some r => if allowedReasons.contains r then r else "step"
      | none => "step"
    (s, [.stoppedWith reason])

/-- `stopWithReason` from `index.ts` (used at launch): terminate-with-summary
when the runtime is already terminated, else a stop. -/
def stopWithReason (s : SessionState) (reason : String) :
    SessionState × List DapEvent :=
  if isTerminated s.rt then
    ((emitTerminationOutput s).1,
      (emitTerminationOutput s).2 ++ [.terminatedSignal])
  else (s, [.stoppedWith reason])

/-- `performNoopStep` from `index.ts` (stepIn/stepOut): on a terminated
session just the terminate signal; otherwise a console note and an in-place
stop. -/
def performNoopStep (s : SessionState) (source : String) :
    SessionState × List DapEvent :=
  if isTerminated s.rt then (s, [.terminatedSignal])
  else
    (s, [.consoleNote (source ++ " not supported; staying on current frame."),
      .stoppedWith "step"])

/-- The protocol requests this model covers (post-launch). -/
inductive Request where
  | launchStop
  | next
  | cont
  | stepIn
  | stepOut
  | stepBack
  | reverseContinue
  | restartFrame (frameId : Nat)
  | setBps (sourcePath : Option String) (lines : List Nat)
  | terminate
deriving DecidableEq, Repr

/-- One request dispatch of `ErrorReplaySession` (`launchStop` is the
`stopWithReason('entry')` call ending `launchRequest`). -/
def handleRequest (s : SessionState) : Request → SessionState × List DapEvent
  | .launchStop => stopWithReason s "entry"
  | .next =>
    postStep { s with rt := (stepOnce s.rt (some "next")).1 }
      (stepOnce s.rt (some "next")).2
  | .cont =>
    postStep { s with rt := (continueExecution s.rt).1 }
      (continueExecution s.rt).2
  | .stepIn => performNoopStep s "stepIn"
  | .stepOut => performNoopStep s "stepOut"
  | .stepBack =>
    (s, [.consoleNote "stepBack not supported; use Restart Frame to replay a frame.",
      .stoppedWith "step"])
  | .reverseContinue =>
    (s, [.consoleNote "reverseContinue not supported; use Restart Frame to replay from a frame.",
      .stoppedWith "step"])
  | .restartFrame frameId =>
    ({ s with rt := setCursorByFrameId s.rt frameId }, [.stoppedWith "restart"])
  | .setBps sourcePath lines =>
    ({ s with rt := (setBreakpoints s.rt sourcePath lines).1 }, [])
  | .terminate =>
    if isTerminated s.rt then
      ((emitTerminationOutput s).1,
        (emitTerminationOutput s).2 ++ [.terminatedSignal])
    else (s, [.terminatedSignal])

/-- Runs a request sequence, concatenating the event traces. -/
def runSession (s : SessionState) : List Request → SessionState × List DapEvent
  | [] => (s, [])
  | r :: rest =>
    ((runSession (handleRequest s r).1 rest).1,
      (handleRequest s r).2 ++ (runSession (handleRequest s r).1 rest).2)

/-- Number of summary lines in an event trace. -/
def summaryCount (evs : List DapEvent) : Nat :=
  evs.countP (fun e => decide (e = .outputSummary))

/-! ## Concrete fixtures -/

/-- A 3-frame stack trace in capture order (crash site first): the crash-site
frame carries snapshot `"s2"`; the other two frames carry no snapshot. -/
def crashTrace3 : List StackTraceFrame :=
  [{ id := "f0", content := "crash", file := some "/demo/app.js",
     function := some "crash", line := some 9, column := some 4,
     snapshotId := some "s2" },
   { id := "f1", content := "inner", file := some "/demo/app.js",
     function := some "inner", line := some 5, column := some 2 },
   { id := "f2", content := "main", file := some "/demo/app.js",
     function := some "main", line := some 1, column := some 0 }]

/-- The session right after launching `crashTrace3`. -/
def crashSession3 : SessionState := SessionState.mk (mkRuntime crashTrace3) false

/-- A 1-frame stack trace. -/
def liveTrace1 : List StackTraceFrame :=
  [{ id := "f0", content := "main", file := some "/app/a.js",
     function := some "main", line := some 3, column := some 0,
     snapshotId := some "s0" }]

/-- The live launched session of `liveTrace1` (cursor on the only frame, not
terminated, summary not sent). -/
def liveSession1 : SessionState := SessionState.mk (mkRuntime liveTrace1) false

example : (mkRuntime crashTrace3).frames.map ReplayFrame.id = [2, 1, 0] := by
  decide
example : (mkRuntime crashTrace3).cursor = 2 := by decide
example : isTerminated liveSession1.rt = false := by decide

/-! ## Claim C9 -/

/-- C9: for a stack trace with zero frames the session is terminated from
launch — the initial cursor is `0`, `isTerminated()` already holds before
any navigation operation, and `getOrderedFrames()` is empty. -/
theorem c9_empty_trace_terminated :
    (mkRuntime []).cursor = 0 ∧
    isTerminated (mkRuntime []) = true ∧
    getOrderedFrames (mkRuntime []) = [] := by
  decide

/-! ## Claim C10 -/

/-- C10: `setBreakpoints` with an undefined source path returns the empty
line list and leaves the whole runtime state — in particular every stored
path's line set — unchanged. -/
theorem c10_undefined_path_noop (rt : RuntimeState) (lines : List Nat) :
    setBreakpoints rt none lines = (rt, []) ∧
    ∀ p : String,
      mapFind (setBreakpoints rt none lines).1.breakpoints p =
        mapFind rt.breakpoints p := by
  exact ⟨rfl, fun _ => rfl⟩

/-! ## Claim C7 -/

/-- C7 counterexample: for the declared type `"number"`, `coerceValue`
applied to the preview text `"null"` returns the raw string `"null"`
(because `Number("null")` is `NaN` and the number branch returns the raw
preview before the null check is reached), not the null value. -/
theorem c7_counterexample_number_type :
    coerceValue (some "null") (some "number") = some (JSValue.vStr "null") ∧
    coerceValue (some "null") (some "number") ≠ some JSValue.vNull := by
  decide

/-- C7 (amended): for every declared type other than `"number"` (including
`"boolean"` and an absent type), `coerceValue` applied to the preview text
`"null"` returns the null value; for `"number"` it returns the raw text
`"null"` instead. -/
theorem c7_null_preview_coerces (t : Option String) (h : t ≠ some "number") :
    coerceValue (some "null") t = some JSValue.vNull := by
  cases t with
  | none => decide
  | some s =>
    have hs : s ≠ "number" := fun h' => h (by rw [h'])
    have h1 : ¬ (some s = some "boolean" ∧ "null" = "true") :=
      fun hc => absurd hc.2 (by decide)
    have h2 : ¬ (some s = some "boolean" ∧ "null" = "false") :=
      fun hc => absurd hc.2 (by decide)
    simp [coerceValue, hs, h1, h2]

/-- C7 witness: the amended theorem evaluated at the declared type
`"boolean"`. -/
theorem c7_null_preview_coerces_witness :
    coerceValue (some "null") (some "boolean") = some JSValue.vNull :=
  c7_null_preview_coerces (some "boolean") (by decide)

/-! ## Claim C3 -/

/-- C3 counterexample: on the 3-frame trace whose crash-site frame (internal
last index) holds snapshot `"s2"`, the initial cursor does resolve to the
crash-site frame (internal index 2), but the very first `next` already
terminates the session — it emits the summary line and the terminate signal
and no stopped event, so the claimed two stopped steps never happen. -/
theorem c3_counterexample_first_next_terminates :
    (mkRuntime crashTrace3).cursor = 2 ∧
    (runSession crashSession3 [.next]).2 =
      [.outputSummary, .terminatedSignal] := by
  decide

/-- C3 (amended): on that trace the initial cursor resolves to the
crash-site frame (internal last index 2); because the cursor only advances,
the first `next` terminates the session, emitting exactly one summary line
before the terminate signal, and a further `next` re-signals termination
without a second summary line. -/
theorem c3_crash_site_launch_then_terminate :
    (mkRuntime crashTrace3).cursor = 2 ∧
    truthyStr (((mkRuntime crashTrace3).frames.get? 2).bind
      ReplayFrame.snapshotId) = true ∧
    (runSession crashSession3 [.next, .next]).2 =
      [.outputSummary, .terminatedSignal, .terminatedSignal] ∧
    summaryCount (runSession crashSession3 [.next, .next]).2 = 1 := by
  decide

/-! ## Claim C5 -/

/-- The `try`/`catch` in `fetchVariables` makes it total: it resolves for
every loader outcome. -/
theorem fetchVariables_never_errors (loader : VarLoader) (st : VarState)
    (sid : String) : ∃ v, fetchVariables loader st sid = .ok v := by
  unfold fetchVariables
  cases loader sid with
  | ok r => exact ⟨_, rfl⟩
  | error e => exact ⟨_, rfl⟩

/-- An uncached lookup invokes the loader once and caches the bundle. -/
theorem getOrLoadVariables_uncached (loader : VarLoader) (st : VarState)
    (sid : String) (hfind : mapFind st.cache sid = none) :
    ∃ v, getOrLoadVariables loader st sid =
      .ok (v, VarState.mk (mapSet st.cache sid v)
        (st.loaderCalls ++ [sid])) := by
  unfold getOrLoadVariables fetchVariables
  rw [hfind]
  cases loader sid with
  | ok r => exact ⟨_, rfl⟩
  | error e => exact ⟨_, rfl⟩

/-- `getOrLoadVariables` resolves for every loader outcome. -/
theorem getOrLoadVariables_never_errors (loader : VarLoader) (st : VarState)
    (sid : String) : ∃ v, getOrLoadVariables loader st sid = .ok v := by
  cases hfind : mapFind st.cache sid with
  | some c => exact ⟨(c, st), by unfold getOrLoadVariables; rw [hfind]⟩
  | none =>
    obtain ⟨v, hv⟩ := getOrLoadVariables_uncached loader st sid hfind
    exact ⟨_, hv⟩

/-- C5: when the external variable loader rejects, `fetchVariables` catches
the rejection and returns the empty `{locals: {}, arguments: {}}` bundle
(recording the single loader invocation), and `getLocals`/`getArguments`
still resolve — no error reaches their caller. -/
theorem c5_loader_failure_degrades (loader : VarLoader) (st : VarState)
    (sid : String) (h : loader sid = .error ()) :
    fetchVariables loader st sid =
      .ok (emptyCaptures, VarState.mk st.cache (st.loaderCalls ++ [sid])) ∧
    (∃ r, getLocals loader st (some sid) = .ok r) ∧
    (∃ r, getArguments loader st (some sid) = .ok r) := by
  obtain ⟨⟨v, st'⟩, hv⟩ := getOrLoadVariables_never_errors loader st sid
  refine ⟨?_, ?_, ?_⟩
  · unfold fetchVariables
    rw [h]
  · by_cases he : sid.data.isEmpty = true
    · exact ⟨([], st), by simp only [getLocals, if_pos he]⟩
    · refine ⟨(v.locals, st'), ?_⟩
      simp only [getLocals, if_neg he, hv]
  · by_cases he : sid.data.isEmpty = true
    · exact ⟨([], st), by simp only [getArguments, if_pos he]⟩
    · refine ⟨(v.arguments, st'), ?_⟩
      simp only [getArguments, if_neg he, hv]

/-- C5 witness: the failing loader evaluated at snapshot id `"s2"` from a
fresh cache. -/
theorem c5_loader_failure_degrades_witness :
    fetchVariables (fun _ => .error ()) initVarState "s2" =
      .ok (emptyCaptures, VarState.mk [] ["s2"]) ∧
    (∃ r, getLocals (fun _ => .error ()) initVarState (some "s2") = .ok r) ∧
    (∃ r, getArguments (fun _ => .error ()) initVarState (some "s2") = .ok r) :=
  c5_loader_failure_degrades (fun _ => .error ()) initVarState "s2" rfl

/-! ## Claim C4 -/

/-- Looking up the key just set. -/
theorem mapFind_mapSet_self {α : Type} (m : List (String × α)) (k : String)
    (v : α) : mapFind (mapSet m k v) k = some v := by
  induction m with
  | nil => simp [mapSet, mapFind]
  | cons e rest ih =>
    simp only [mapSet]
    split
    · simp [mapFind]
    · simp only [mapFind]
      rw [if_neg (by assumption)]
      exact ih

/-- Setting one key leaves every other key's binding unchanged. -/
theorem mapFind_mapSet_ne {α : Type} (m : List (String × α)) (k : String)
    (v : α) (k' : String) (h : k' ≠ k) :
    mapFind (mapSet m k v) k' = mapFind m k' := by
  induction m with
  | nil =>
    simp only [mapSet, mapFind]
    rw [if_neg (by simp [beq_iff_eq]; exact fun hh => h hh.symm)]
  | cons e rest ih =>
    simp only [mapSet]
    split
    · rename_i hek
      simp only [mapFind]
      rw [beq_iff_eq] at hek
      subst hek
      rw [if_neg (by simp [beq_iff_eq]; exact fun hh => h hh.symm),
        if_neg (by simp [beq_iff_eq]; exact fun hh => h hh.symm)]
    · simp only [mapFind]
      split
      · rfl
      · exact ih

/-- Invariant carried along a query sequence: the loader has been invoked at
most once for `sid`, and not at all while `sid` is uncached. -/
theorem runQueries_count_invariant (loader : VarLoader) (sid : String) :
    ∀ (qs : List String) (st : VarState),
      st.loaderCalls.count sid ≤ 1 →
      (mapFind st.cache sid = none → st.loaderCalls.count sid = 0) →
      (runQueries loader st qs).loaderCalls.count sid ≤ 1 := by
  intro qs
  induction qs with
  | nil =>
    intro st h1 _
    exact h1
  | cons q rest ih =>
    intro st h1 h2
    cases hfind : mapFind st.cache q with
    | some c =>
      have hstep : getOrLoadVariables loader st q = .ok (c, st) := by
        unfold getOrLoadVariables
        rw [hfind]
      unfold runQueries
      rw [hstep]
      exact ih st h1 h2
    | none =>
      obtain ⟨v, hstep⟩ := getOrLoadVariables_uncached loader st q hfind
      unfold runQueries
      rw [hstep]
      apply ih
      · rw [List.count_append]
        by_cases hq : q = sid
        · subst hq
          have h0 := h2 hfind
          simp [h0, List.count_cons]
        · have : ([q].count sid) = 0 := by
            simp [List.count_cons]
            exact fun hh => hq hh
          omega
      · intro hnone
        by_cases hq : q = sid
        · subst hq
          rw [mapFind_mapSet_self] at hnone
          exact absurd hnone (by simp)
        · rw [mapFind_mapSet_ne _ _ _ _ (fun hh => hq hh.symm)] at hnone
          have h0 := h2 hnone
          rw [List.count_append, h0]
          simp [List.count_cons]
          exact fun hh => hq hh

/-- C4: the loader is invoked at most once per snapshot identifier — a
cached identifier is answered from the cache with no state change, an
uncached one invokes the loader once and stores the bundle, and across any
sequential query sequence from session start each identifier's invocation
count stays at most one. -/
theorem c4_loader_invoked_once (loader : VarLoader) (qs : List String)
    (sid : String) :
    (runQueries loader initVarState qs).loaderCalls.count sid ≤ 1 ∧
    (∀ st c, mapFind st.cache sid = some c →
      getOrLoadVariables loader st sid = .ok (c, st)) ∧
    (∀ st, mapFind st.cache sid = none →
      ∃ v, getOrLoadVariables loader st sid =
        .ok (v, VarState.mk (mapSet st.cache sid v)
          (st.loaderCalls ++ [sid]))) := by
  refine ⟨?_, ?_, ?_⟩
  · exact runQueries_count_invariant loader sid qs initVarState
      (by simp [initVarState]) (fun _ => by simp [initVarState])
  · intro st c hc
    unfold getOrLoadVariables
    rw [hc]
  · intro st hn
    exact getOrLoadVariables_uncached loader st sid hn

/-- C4 witness: two sequential queries for `"s2"` against a loader that
resolves with no data — at most one recorded invocation; and a cache that
already holds `"s2"` answers without any state change. -/
theorem c4_loader_invoked_once_witness :
    (runQueries (fun _ => Except.ok none) initVarState
      ["s2", "s2"]).loaderCalls.count "s2" ≤ 1 ∧
    getOrLoadVariables (fun _ => Except.ok none)
      (VarState.mk [("s2", emptyCaptures)] ["s2"]) "s2" =
      .ok (emptyCaptures, VarState.mk [("s2", emptyCaptures)] ["s2"]) := by
  constructor
  · exact (c4_loader_invoked_once (fun _ => Except.ok none) ["s2", "s2"] "s2").1
  · exact (c4_loader_invoked_once (fun _ => Except.ok none) [] "s2").2.1
      (VarState.mk [("s2", emptyCaptures)] ["s2"]) emptyCaptures rfl

/-! ## Claim C8 -/

/-- Boolean string-prefix test on the underlying character lists. -/
def strStartsWith (s pre : String) : Bool :=
  s.data.take pre.data.length == pre.data

/-- A concatenation starts with its first part. -/
theorem strStartsWith_append (a b : String) : strStartsWith (a ++ b) a = true := by
  unfold strStartsWith
  rw [String.data_append, List.take_left]
  simp

/-- The start value bounds a `Nat.max` fold from below. -/
theorem le_foldl_max (l : List Nat) (a : Nat) : a ≤ l.foldl Nat.max a := by
  induction l generalizing a with
  | nil => exact Nat.le_refl a
  | cons x xs ih => exact Nat.le_trans (Nat.le_max_left a x) (ih (Nat.max a x))

/-- Every member bounds a `Nat.max` fold from below. -/
theorem mem_le_foldl_max (l : List Nat) (a n : Nat) (h : n ∈ l) :
    n ≤ l.foldl Nat.max a := by
  induction l generalizing a with
  | nil => cases h
  | cons x xs ih =>
    rcases List.mem_cons.mp h with rfl | hmem
    · exact Nat.le_trans (Nat.le_max_right a n) (le_foldl_max xs (Nat.max a n))
    · exact ih (Nat.max a x) hmem

/-- A `Nat.max` fold returns its start value or a member. -/
theorem foldl_max_mem (l : List Nat) (a : Nat) :
    l.foldl Nat.max a = a ∨ l.foldl Nat.max a ∈ l := by
  induction l generalizing a with
  | nil => exact Or.inl rfl
  | cons x xs ih =>
    rcases ih (Nat.max a x) with h | h
    · rw [List.foldl_cons, h]
      rcases Nat.le_total a x with hax | hxa
      · right
        have hx : Nat.max a x = x := Nat.max_eq_right hax
        rw [hx]
        exact List.mem_cons_self x xs
      · left
        have hx : Nat.max a x = a := Nat.max_eq_left hxa
        rw [hx]
    · right
      rw [List.foldl_cons]
      exact List.mem_cons_of_mem x h

/-- A successful decimal-key parse is exactly the `/^\d+$/` test used by
`isArrayLike`. -/
theorem parseDecimalKey_isSome_iff (k : String) :
    (parseDecimalKey k).isSome = true ↔
      (!k.data.isEmpty && k.data.all Char.isDigit) = true := by
  unfold parseDecimalKey
  split <;> simp_all

/-- All-decimal nonempty key lists are array-like. -/
theorem isArrayLike_of_decimal (keys : List String) (hne : keys ≠ [])
    (hdec : ∀ k ∈ keys, (parseDecimalKey k).isSome) :
    isArrayLike keys = true := by
  unfold isArrayLike
  have h1 : keys.isEmpty = false := by simp [List.isEmpty_iff, hne]
  rw [h1]
  simp only [Bool.not_false, Bool.true_and, List.all_eq_true]
  intro k hk
  exact (parseDecimalKey_isSome_iff k).mp (hdec k hk)

/-- On a nonempty all-decimal key list, `inferArrayLength` is one more than
the fold of `Nat.max` over the parsed keys. -/
theorem inferArrayLength_eq (keys : List String) (hne : keys ≠ [])
    (hdec : ∀ k ∈ keys, (parseDecimalKey k).isSome) :
    inferArrayLength keys =
      (keys.filterMap parseDecimalKey).foldl Nat.max 0 + 1 := by
  obtain ⟨k0, hk0⟩ := List.exists_mem_of_ne_nil keys hne
  obtain ⟨n0, hn0⟩ := Option.isSome_iff_exists.mp (hdec k0 hk0)
  have hmem : n0 ∈ keys.filterMap parseDecimalKey :=
    List.mem_filterMap.mpr ⟨k0, hk0, hn0⟩
  have h1 : keys.isEmpty = false := by simp [List.isEmpty_iff, hne]
  have h2 : (keys.filterMap parseDecimalKey).isEmpty = false := by
    cases hl : keys.filterMap parseDecimalKey with
    | nil =>
      rw [hl] at hmem
      cases hmem
    | cons a as => rfl
  simp [inferArrayLength, h1, h2]

/-- C8: for every sequence-shaped node (nonempty fields, every key a decimal
numeral) the one-line preview reports the logical length `M + 1`, where `M`
is the maximum numeric key present — not the count of present entries: `M`
bounds every parsed key and is itself a parsed key, `inferArrayLength`
returns `M + 1`, and the rendered preview starts with `(M + 1) [`. -/
theorem c8_sparse_sequence_length (fields : List (String × VariableNode))
    (t : Option String) (hne : fields ≠ [])
    (hdec : ∀ k ∈ fields.map Prod.fst, (parseDecimalKey k).isSome) :
    ∃ M : Nat,
      (∀ k n, k ∈ fields.map Prod.fst → parseDecimalKey k = some n → n ≤ M) ∧
      (∃ k, k ∈ fields.map Prod.fst ∧ parseDecimalKey k = some M) ∧
      inferArrayLength (fields.map Prod.fst) = M + 1 ∧
      strStartsWith (formatNodeValue (VariableNode.mk t none (some fields)))
        ("(" ++ toString (M + 1) ++ ") [") = true := by
  have hKNE : fields.map Prod.fst ≠ [] := by
    intro hh
    exact hne (List.map_eq_nil_iff.mp hh)
  have hAL := isArrayLike_of_decimal (fields.map Prod.fst) hKNE hdec
  have hIE : (fields.map Prod.fst).isEmpty = false := by
    simp [List.isEmpty_iff, hKNE]
  have hlen := inferArrayLength_eq (fields.map Prod.fst) hKNE hdec
  refine ⟨((fields.map Prod.fst).filterMap parseDecimalKey).foldl Nat.max 0,
    ?_, ?_, hlen, ?_⟩
  · intro k n hk hp
    exact mem_le_foldl_max _ 0 n (List.mem_filterMap.mpr ⟨k, hk, hp⟩)
  · obtain ⟨k0, hk0⟩ := List.exists_mem_of_ne_nil _ hKNE
    obtain ⟨n0, hn0⟩ := Option.isSome_iff_exists.mp (hdec k0 hk0)
    rcases foldl_max_mem ((fields.map Prod.fst).filterMap parseDecimalKey) 0
      with hz | hm
    · have hle : n0 ≤ 0 := by
        rw [← hz]
        exact mem_le_foldl_max _ 0 n0 (List.mem_filterMap.mpr ⟨k0, hk0, hn0⟩)
      have : n0 = 0 := Nat.le_zero.mp hle
      subst this
      rw [hz]
      exact ⟨k0, hk0, hn0⟩
    · exact List.mem_filterMap.mp hm
  · have hfmt : formatNodeValue (VariableNode.mk t none (some fields)) =
        formatArrayPreview fields := by
      simp only [formatNodeValue, VariableNode.value, VariableNode.fields,
        Option.getD_some]
      rw [if_neg (by simp [hIE]), if_pos hAL]
    rw [hfmt]
    simp only [formatArrayPreview]
    rw [hlen]
    exact strStartsWith_append _ _

/-- C8 witness: a node whose only child keys are `"0"` and `"2"` previews
with logical length `3` (and concretely renders as `(3) [a, undefined, b]`). -/
theorem c8_sparse_sequence_length_witness :
    (∃ M : Nat,
      (∀ k n, k ∈ ([("0", VariableNode.mk none (some (.vStr "a")) none),
          ("2", VariableNode.mk none (some (.vStr "b")) none)] :
          List (String × VariableNode)).map Prod.fst →
        parseDecimalKey k = some n → n ≤ M) ∧
      (∃ k, k ∈ ([("0", VariableNode.mk none (some (.vStr "a")) none),
          ("2", VariableNode.mk none (some (.vStr "b")) none)] :
          List (String × VariableNode)).map Prod.fst ∧
        parseDecimalKey k = some M) ∧
      inferArrayLength (([("0", VariableNode.mk none (some (.vStr "a")) none),
          ("2", VariableNode.mk none (some (.vStr "b")) none)] :
          List (String × VariableNode)).map Prod.fst) = M + 1 ∧
      strStartsWith (formatNodeValue (VariableNode.mk none none (some
          [("0", VariableNode.mk none (some (.vStr "a")) none),
           ("2", VariableNode.mk none (some (.vStr "b")) none)])))
        ("(" ++ toString (M + 1) ++ ") [") = true) ∧
    formatNodeValue (VariableNode.mk none none (some
        [("0", VariableNode.mk none (some (.vStr "a")) none),
         ("2", VariableNode.mk none (some (.vStr "b")) none)])) =
      "(3) [a, undefined, b]" := by
  constructor
  · exact c8_sparse_sequence_length
      [("0", VariableNode.mk none (some (.vStr "a")) none),
       ("2", VariableNode.mk none (some (.vStr "b")) none)]
      none (List.cons_ne_nil _ _) (by decide)
  · decide

/-! ## Claim C1 -/

/-- The initial cursor placement lands inside `[0, frameCount]`. -/
theorem findInitialFrame_bounds (frames : List ReplayFrame) :
    0 ≤ findInitialFrame frames ∧
      findInitialFrame frames ≤ (frames.length : Int) := by
  unfold findInitialFrame
  split
  · constructor <;> omega
  · split <;> constructor <;> omega

/-- `findNextBreakpointIndex` returns `-1` or an index inside
`[0, frameCount)`. -/
theorem findNextBreakpointIndex_cases (rt : RuntimeState) (start : Int) :
    findNextBreakpointIndex rt start = -1 ∨
      (0 ≤ findNextBreakpointIndex rt start ∧
        findNextBreakpointIndex rt start < (rt.frames.length : Int)) := by
  cases hf : (List.range rt.frames.length).findIdx? (fun (i : Nat) =>
      decide (start ≤ (i : Int)) &&
        hitsBreakpoint rt.breakpoints (rt.frames.get? i)) with
  | none =>
    left
    unfold findNextBreakpointIndex
    rw [hf]
  | some i =>
    right
    have hi := (List.findIdx?_eq_some_iff_findIdx_eq.mp hf).1
    rw [List.length_range] at hi
    unfold findNextBreakpointIndex
    rw [hf]
    dsimp only
    constructor <;> omega

/-- `stepOnce` keeps the cursor inside `[0, frameCount]`. -/
theorem stepOnce_bounds (rt : RuntimeState) (reason : Option String)
    (h : 0 ≤ rt.cursor ∧ rt.cursor ≤ (rt.frames.length : Int)) :
    0 ≤ (stepOnce rt reason).1.cursor ∧
      (stepOnce rt reason).1.cursor ≤
        ((stepOnce rt reason).1.frames.length : Int) := by
  unfold stepOnce
  split
  · dsimp only
    constructor <;> omega
  · split <;> dsimp only <;> constructor <;> omega

/-- `continueExecution` keeps the cursor inside `[0, frameCount]`. -/
theorem continueExecution_bounds (rt : RuntimeState)
    (_h : 0 ≤ rt.cursor ∧ rt.cursor ≤ (rt.frames.length : Int)) :
    0 ≤ (continueExecution rt).1.cursor ∧
      (continueExecution rt).1.cursor ≤
        ((continueExecution rt).1.frames.length : Int) := by
  rcases findNextBreakpointIndex_cases rt (rt.cursor + 1) with hc | hc
  · unfold continueExecution
    rw [if_pos hc]
    dsimp only
    constructor <;> omega
  · unfold continueExecution
    rw [if_neg (by omega)]
    dsimp only
    constructor <;> omega

/-- `setCursorByFrameId` keeps the cursor inside `[0, frameCount]`. -/
theorem setCursorByFrameId_bounds (rt : RuntimeState) (frameId : Nat)
    (h : 0 ≤ rt.cursor ∧ rt.cursor ≤ (rt.frames.length : Int)) :
    0 ≤ (setCursorByFrameId rt frameId).cursor ∧
      (setCursorByFrameId rt frameId).cursor ≤
        ((setCursorByFrameId rt frameId).frames.length : Int) := by
  unfold setCursorByFrameId
  cases hf : rt.frames.findIdx? (fun f => f.id == frameId) with
  | none => exact h
  | some idx =>
    have hi := (List.findIdx?_eq_some_iff_findIdx_eq.mp hf).1
    dsimp only
    constructor <;> omega

/-- `setCursorByLocation` keeps the cursor inside `[0, frameCount]`. -/
theorem setCursorByLocation_bounds (rt : RuntimeState)
    (filePath : Option String) (line : Option Nat)
    (h : 0 ≤ rt.cursor ∧ rt.cursor ≤ (rt.frames.length : Int)) :
    0 ≤ (setCursorByLocation rt filePath line).cursor ∧
      (setCursorByLocation rt filePath line).cursor ≤
        ((setCursorByLocation rt filePath line).frames.length : Int) := by
  cases line with
  | none => exact h
  | some ln =>
    unfold setCursorByLocation
    dsimp only
    by_cases he : rt.frames.isEmpty = true
    · rw [if_pos he]
      exact h
    · rw [if_neg he]
      cases hf : rt.frames.findIdx? (fun f =>
          (match normalizedStartFile filePath with
           | some nf => pathNormalize (f.file.getD "") == nf
           | none => true) && f.line == ln) with
      | none => exact h
      | some idx =>
        have hi := (List.findIdx?_eq_some_iff_findIdx_eq.mp hf).1
        dsimp only
        constructor <;> omega

/-- `setBreakpoints` never moves the cursor or the frame list. -/
theorem setBreakpoints_state (rt : RuntimeState) (sourcePath : Option String)
    (lines : List Nat) :
    (setBreakpoints rt sourcePath lines).1.cursor = rt.cursor ∧
      (setBreakpoints rt sourcePath lines).1.frames = rt.frames := by
  unfold setBreakpoints
  cases sourcePath with
  | none => exact ⟨rfl, rfl⟩
  | some p =>
    by_cases hs : p.data.isEmpty = true
    · dsimp only
      rw [if_pos hs]
      exact ⟨rfl, rfl⟩
    · dsimp only
      rw [if_neg hs]
      exact ⟨rfl, rfl⟩

/-- `setBreakpoints` keeps the cursor inside `[0, frameCount]`. -/
theorem setBreakpoints_bounds (rt : RuntimeState) (sourcePath : Option String)
    (lines : List Nat)
    (h : 0 ≤ rt.cursor ∧ rt.cursor ≤ (rt.frames.length : Int)) :
    0 ≤ (setBreakpoints rt sourcePath lines).1.cursor ∧
      (setBreakpoints rt sourcePath lines).1.cursor ≤
        ((setBreakpoints rt sourcePath lines).1.frames.length : Int) := by
  have hc := setBreakpoints_state rt sourcePath lines
  rw [hc.1, hc.2]
  exact h

/-- `isTerminated` is, definitionally, "cursor outside `[0, frameCount)`". -/
theorem isTerminated_iff (rt : RuntimeState) :
    isTerminated rt = true ↔
      ¬ (0 ≤ rt.cursor ∧ rt.cursor < (rt.frames.length : Int)) := by
  unfold isTerminated
  simp only [Bool.or_eq_true, decide_eq_true_eq]
  omega

/-- The runtime states reachable by any sequence of runtime operations from
a launch: initial cursor placement, `stepOnce`, `continueExecution`,
`setCursorByFrameId`, `setCursorByLocation` and `setBreakpoints`. -/
inductive Reachable : RuntimeState → Prop where
  | launch (input : List StackTraceFrame) : Reachable (mkRuntime input)
  | stepped (rt : RuntimeState) (reason : Option String) :
      Reachable rt → Reachable (stepOnce rt reason).1
  | continued (rt : RuntimeState) :
      Reachable rt → Reachable (continueExecution rt).1
  | jumpedById (rt : RuntimeState) (frameId : Nat) :
      Reachable rt → Reachable (setCursorByFrameId rt frameId)
  | jumpedByLocation (rt : RuntimeState) (p : Option String) (l : Option Nat) :
      Reachable rt → Reachable (setCursorByLocation rt p l)
  | breakpointsReplaced (rt : RuntimeState) (p : Option String)
      (lines : List Nat) :
      Reachable rt → Reachable (setBreakpoints rt p lines).1

/-- Every reachable runtime state has its cursor inside `[0, frameCount]`. -/
theorem cursor_bounds_of_reachable (rt : RuntimeState) (h : Reachable rt) :
    0 ≤ rt.cursor ∧ rt.cursor ≤ (rt.frames.length : Int) := by
  induction h with
  | launch input => exact findInitialFrame_bounds (buildFrames input)
  | stepped rt' reason _ ih => exact stepOnce_bounds rt' reason ih
  | continued rt' _ ih => exact continueExecution_bounds rt' ih
  | jumpedById rt' fid _ ih => exact setCursorByFrameId_bounds rt' fid ih
  | jumpedByLocation rt' p l _ ih => exact setCursorByLocation_bounds rt' p l ih
  | breakpointsReplaced rt' p lines _ ih =>
    exact setBreakpoints_bounds rt' p lines ih

/-- C1: under every sequence of runtime operations (initial placement,
`stepOnce`, `continueExecution`, `setCursorByFrameId`, `setCursorByLocation`,
`setBreakpoints`) the cursor stays inside `[0, frameCount]`, and
`isTerminated()` holds exactly when the cursor is outside `[0, frameCount)`. -/
theorem c1_cursor_invariant (rt : RuntimeState) (h : Reachable rt) :
    (0 ≤ rt.cursor ∧ rt.cursor ≤ (rt.frames.length : Int)) ∧
    (isTerminated rt = true ↔
      ¬ (0 ≤ rt.cursor ∧ rt.cursor < (rt.frames.length : Int))) :=
  ⟨cursor_bounds_of_reachable rt h, isTerminated_iff rt⟩

/-- C1 witness: the invariant evaluated on the state reached by a step and a
continue after launching `crashTrace3`. -/
theorem c1_cursor_invariant_witness :
    (0 ≤ (continueExecution (stepOnce (mkRuntime crashTrace3)
        (some "next")).1).1.cursor ∧
      (continueExecution (stepOnce (mkRuntime crashTrace3)
        (some "next")).1).1.cursor ≤
        (((continueExecution (stepOnce (mkRuntime crashTrace3)
          (some "next")).1).1.frames.length : Int))) ∧
    (isTerminated (continueExecution (stepOnce (mkRuntime crashTrace3)
        (some "next")).1).1 = true ↔
      ¬ (0 ≤ (continueExecution (stepOnce (mkRuntime crashTrace3)
          (some "next")).1).1.cursor ∧
        (continueExecution (stepOnce (mkRuntime crashTrace3)
          (some "next")).1).1.cursor <
          ((continueExecution (stepOnce (mkRuntime crashTrace3)
            (some "next")).1).1.frames.length : Int))) :=
  c1_cursor_invariant _
    (Reachable.continued _ (Reachable.stepped _ (some "next")
      (Reachable.launch crashTrace3)))

/-! ## Claim C2 -/

/-- Whether the frame at internal index `i` hits a stored breakpoint: its
normalized file equals a stored normalized path and its line is in that
path's line set (`hitsBreakpoint` of `index.ts` applied at index `i`). -/
def hitsAt (rt : RuntimeState) (i : Nat) : Bool :=
  hitsBreakpoint rt.breakpoints (rt.frames.get? i)

example :
    (continueExecution (RuntimeState.mk
      [ReplayFrame.mk 1 "a" (some "/a.js") 3 1 none,
       ReplayFrame.mk 0 "b" (some "/a.js") 5 1 none]
      [("/a.js", [5])] 0)).1.cursor = 1 := by decide

/-- The scan of `findNextBreakpointIndex`: either no index at or past
`start` hits a breakpoint and the result is `-1`, or the result is the least
hitting index at or past `start`. -/
theorem findNextBreakpointIndex_spec (rt : RuntimeState) (start : Int) :
    (findNextBreakpointIndex rt start = -1 ∧
      ∀ j : Nat, j < rt.frames.length → start ≤ (j : Int) →
        hitsAt rt j = false) ∨
    (∃ i : Nat, findNextBreakpointIndex rt start = (i : Int) ∧
      i < rt.frames.length ∧ start ≤ (i : Int) ∧ hitsAt rt i = true ∧
      ∀ j : Nat, j < i → start ≤ (j : Int) → hitsAt rt j = false) := by
  cases hf : (List.range rt.frames.length).findIdx? (fun (i : Nat) =>
      decide (start ≤ (i : Int)) &&
        hitsBreakpoint rt.breakpoints (rt.frames.get? i)) with
  | none =>
    left
    constructor
    · unfold findNextBreakpointIndex
      rw [hf]
    · intro j hj hsj
      have hall := List.findIdx?_eq_none_iff.mp hf
      have hj' := hall j (List.mem_range.mpr hj)
      have hj'' : start ≤ (j : Int) →
          hitsBreakpoint rt.breakpoints rt.frames[j]? = false := by
        simpa using hj'
      simp only [hitsAt, List.get?_eq_getElem?]
      exact hj'' hsj
  | some i =>
    right
    obtain ⟨hlt, hp, hmin⟩ := List.findIdx?_eq_some_iff_getElem.mp hf
    rw [List.length_range] at hlt
    simp only [List.getElem_range] at hp hmin
    have hp' : start ≤ (i : Int) ∧
        hitsBreakpoint rt.breakpoints rt.frames[i]? = true := by
      simpa using hp
    refine ⟨i, ?_, hlt, hp'.1, ?_, ?_⟩
    · unfold findNextBreakpointIndex
      rw [hf]
    · simp only [hitsAt, List.get?_eq_getElem?]
      exact hp'.2
    · intro j hj hsj
      have hj' := hmin j hj
      have hj'' : start ≤ (j : Int) →
          hitsBreakpoint rt.breakpoints rt.frames[j]? = false := by
        simpa using hj'
      simp only [hitsAt, List.get?_eq_getElem?]
      exact hj'' hsj

/-- What `continueExecution` does on any runtime state: when some index
strictly past the cursor hits a breakpoint it stops with reason
`breakpoint` on the least such index — strictly increasing the cursor —
and when none does it terminates. -/
theorem continueExecution_spec (rt : RuntimeState) :
    ((∃ i : Nat, i < rt.frames.length ∧ rt.cursor < (i : Int) ∧
        hitsAt rt i = true) →
      (continueExecution rt).2.stopped = true ∧
      (continueExecution rt).2.reason = some "breakpoint" ∧
      ∃ i : Nat, (continueExecution rt).1.cursor = (i : Int) ∧
        i < rt.frames.length ∧ rt.cursor < (i : Int) ∧ hitsAt rt i = true ∧
        ∀ j : Nat, j < rt.frames.length → rt.cursor < (j : Int) →
          hitsAt rt j = true → i ≤ j) ∧
    ((¬ ∃ i : Nat, i < rt.frames.length ∧ rt.cursor < (i : Int) ∧
        hitsAt rt i = true) →
      (continueExecution rt).2.terminated = true ∧
      isTerminated (continueExecution rt).1 = true) ∧
    ((continueExecution rt).2.stopped = true →
      rt.cursor < (continueExecution rt).1.cursor) := by
  rcases findNextBreakpointIndex_spec rt (rt.cursor + 1) with
    ⟨hneg, hall⟩ | ⟨i, hi, hlen, hstart, hhit, hmin⟩
  · have hceq : continueExecution rt =
        ({ rt with cursor := (rt.frames.length : Int) },
          { terminated := true }) := by
      unfold continueExecution
      rw [if_pos hneg]
    refine ⟨?_, ?_, ?_⟩
    · intro ⟨i, hilen, hic, hih⟩
      have := hall i hilen (by omega)
      rw [this] at hih
      cases hih
    · intro _
      rw [hceq]
      refine ⟨rfl, ?_⟩
      simp only [isTerminated, Bool.or_eq_true, decide_eq_true_eq]
      omega
    · intro hstop
      rw [hceq] at hstop
      cases hstop
  · have hceq : continueExecution rt =
        ({ rt with cursor := findNextBreakpointIndex rt (rt.cursor + 1) },
          { stopped := true, reason := some "breakpoint" }) := by
      unfold continueExecution
      rw [if_neg (by rw [hi]; omega)]
    refine ⟨?_, ?_, ?_⟩
    · intro _
      refine ⟨by rw [hceq], by rw [hceq], i, ?_, hlen, by omega, hhit, ?_⟩
      · rw [hceq]
        dsimp only
        exact hi
      · intro j hjlen hjc hjh
        by_contra hij
        have := hmin j (by omega) (by omega)
        rw [this] at hjh
        cases hjh
    · intro hno
      exact absurd ⟨i, hlen, by omega, hhit⟩ hno
    · intro _
      rw [hceq]
      dsimp only
      rw [hi]
      omega

/-- A 3-frame runtime (frames given directly, cursor on internal index 0)
whose breakpoint store already holds an entry for `/b.js` with line set
`{2}` before the set call. -/
def c2CexBase : RuntimeState :=
  RuntimeState.mk
    [ReplayFrame.mk 2 "outer" (some "/a.js") 1 1 none,
     ReplayFrame.mk 1 "mid" (some "/b.js") 2 1 none,
     ReplayFrame.mk 0 "crash" (some "/a.js") 3 1 none]
    [("/b.js", [2])] 0

/-- The same runtime after `setBreakpoints("/a.js", [3])`. -/
def c2CexAfterSet : RuntimeState :=
  (setBreakpoints c2CexBase (some "/a.js") [3]).1

/-- C2 counterexample: after `setBreakpoints("/a.js", [3])` on a store that
already holds a breakpoint for `/b.js`, the smallest internal index strictly
past the cursor whose frame matches the just-set `(path, lines)` pair is 2
(file `/a.js`, line 3, and no smaller index past the cursor matches), yet
`continueExecution` stops at index 1 — a `/b.js` frame that does not match
the just-set path — so the cursor is not set to the smallest index matching
the path stored by the set call, refuting the claim as stated. -/
theorem c2_counterexample_prior_store :
    c2CexAfterSet.cursor = 0 ∧
    ((c2CexAfterSet.frames.get? 2).bind ReplayFrame.file =
        some (pathNormalize "/a.js") ∧
      (c2CexAfterSet.frames.get? 2).map ReplayFrame.line = some 3) ∧
    (∀ j : Nat, j < 2 → 0 < (j : Int) →
      ¬ ((c2CexAfterSet.frames.get? j).bind ReplayFrame.file =
          some (pathNormalize "/a.js") ∧
        (c2CexAfterSet.frames.get? j).map ReplayFrame.line = some 3)) ∧
    (continueExecution c2CexAfterSet).2.stopped = true ∧
    (continueExecution c2CexAfterSet).1.cursor = 1 ∧
    (continueExecution c2CexAfterSet).1.cursor ≠ 2 ∧
    (c2CexAfterSet.frames.get? 1).bind ReplayFrame.file ≠
      some (pathNormalize "/a.js") := by
  decide

/-- C2 (amended): after `setBreakpoints(path, lines)` — which replaces the
normalized path's store entry with exactly that (deduplicated) line set and
leaves the cursor unchanged — `continueExecution()` moves the cursor to the
smallest internal index strictly past it whose frame's normalized file
equals some stored normalized path with its line in that path's set (stop
reason `breakpoint`); when no such index exists the session is marked
terminated; whenever it stops the new cursor is strictly greater than the
cursor before the call. -/
theorem c2_continue_lands_on_earliest_breakpoint (rt : RuntimeState)
    (p : String) (lines : List Nat) (rt1 : RuntimeState)
    (h1 : rt1 = (setBreakpoints rt (some p) lines).1)
    (hp : p.data.isEmpty = false) :
    rt1.cursor = rt.cursor ∧
    mapFind rt1.breakpoints (pathNormalize p) = some (jsSetOfList lines) ∧
    ((∃ i : Nat, i < rt1.frames.length ∧ rt1.cursor < (i : Int) ∧
        hitsAt rt1 i = true) →
      (continueExecution rt1).2.stopped = true ∧
      (continueExecution rt1).2.reason = some "breakpoint" ∧
      ∃ i : Nat, (continueExecution rt1).1.cursor = (i : Int) ∧
        i < rt1.frames.length ∧ rt1.cursor < (i : Int) ∧ hitsAt rt1 i = true ∧
        ∀ j : Nat, j < rt1.frames.length → rt1.cursor < (j : Int) →
          hitsAt rt1 j = true → i ≤ j) ∧
    ((¬ ∃ i : Nat, i < rt1.frames.length ∧ rt1.cursor < (i : Int) ∧
        hitsAt rt1 i = true) →
      (continueExecution rt1).2.terminated = true ∧
      isTerminated (continueExecution rt1).1 = true) ∧
    ((continueExecution rt1).2.stopped = true →
      rt.cursor < (continueExecution rt1).1.cursor) := by
  obtain ⟨hspec1, hspec2, hspec3⟩ := continueExecution_spec rt1
  have hcur : rt1.cursor = rt.cursor := by
    rw [h1]
    exact (setBreakpoints_state rt (some p) lines).1
  have hbp : rt1.breakpoints =
      mapSet rt.breakpoints (pathNormalize p) (jsSetOfList lines) := by
    rw [h1]
    unfold setBreakpoints
    dsimp only
    rw [if_neg (by rw [hp]; exact Bool.false_ne_true)]
  have hstore : mapFind rt1.breakpoints (pathNormalize p) =
      some (jsSetOfList lines) := by
    rw [hbp]
    exact mapFind_mapSet_self _ _ _
  exact ⟨hcur, hstore, hspec1, hspec2, fun hs => hcur ▸ hspec3 hs⟩

/-- C2 witness: the amended theorem evaluated on the launched `crashTrace3`
runtime after `setBreakpoints("/demo/app.js", [9])`, discharging both
hypotheses at concrete inputs. -/
theorem c2_continue_lands_on_earliest_breakpoint_witness :
    ((setBreakpoints (mkRuntime crashTrace3) (some "/demo/app.js") [9]).1.cursor =
        (mkRuntime crashTrace3).cursor ∧
      mapFind (setBreakpoints (mkRuntime crashTrace3)
          (some "/demo/app.js") [9]).1.breakpoints
          (pathNormalize "/demo/app.js") = some (jsSetOfList [9]) ∧
      ((∃ i : Nat,
          i < (setBreakpoints (mkRuntime crashTrace3)
            (some "/demo/app.js") [9]).1.frames.length ∧
          (setBreakpoints (mkRuntime crashTrace3)
            (some "/demo/app.js") [9]).1.cursor < (i : Int) ∧
          hitsAt (setBreakpoints (mkRuntime crashTrace3)
            (some "/demo/app.js") [9]).1 i = true) →
        (continueExecution (setBreakpoints (mkRuntime crashTrace3)
          (some "/demo/app.js") [9]).1).2.stopped = true ∧
        (continueExecution (setBreakpoints (mkRuntime crashTrace3)
          (some "/demo/app.js") [9]).1).2.reason = some "breakpoint" ∧
        ∃ i : Nat,
          (continueExecution (setBreakpoints (mkRuntime crashTrace3)
            (some "/demo/app.js") [9]).1).1.cursor = (i : Int) ∧
          i < (setBreakpoints (mkRuntime crashTrace3)
            (some "/demo/app.js") [9]).1.frames.length ∧
          (setBreakpoints (mkRuntime crashTrace3)
            (some "/demo/app.js") [9]).1.cursor < (i : Int) ∧
          hitsAt (setBreakpoints (mkRuntime crashTrace3)
            (some "/demo/app.js") [9]).1 i = true ∧
          ∀ j : Nat,
            j < (setBreakpoints (mkRuntime crashTrace3)
              (some "/demo/app.js") [9]).1.frames.length →
            (setBreakpoints (mkRuntime crashTrace3)
              (some "/demo/app.js") [9]).1.cursor < (j : Int) →
            hitsAt (setBreakpoints (mkRuntime crashTrace3)
              (some "/demo/app.js") [9]).1 j = true → i ≤ j) ∧
      ((¬ ∃ i : Nat,
          i < (setBreakpoints (mkRuntime crashTrace3)
            (some "/demo/app.js") [9]).1.frames.length ∧
          (setBreakpoints (mkRuntime crashTrace3)
            (some "/demo/app.js") [9]).1.cursor < (i : Int) ∧
          hitsAt (setBreakpoints (mkRuntime crashTrace3)
            (some "/demo/app.js") [9]).1 i = true) →
        (continueExecution (setBreakpoints (mkRuntime crashTrace3)
          (some "/demo/app.js") [9]).1).2.terminated = true ∧
        isTerminated (continueExecution (setBreakpoints (mkRuntime crashTrace3)
          (some "/demo/app.js") [9]).1).1 = true) ∧
      ((continueExecution (setBreakpoints (mkRuntime crashTrace3)
          (some "/demo/app.js") [9]).1).2.stopped = true →
        (mkRuntime crashTrace3).cursor <
          (continueExecution (setBreakpoints (mkRuntime crashTrace3)
            (some "/demo/app.js") [9]).1).1.cursor)) :=
  c2_continue_lands_on_earliest_breakpoint (mkRuntime crashTrace3)
    "/demo/app.js" [9] _ rfl rfl

/-! ## Claim C6 -/

/-- `summaryCount` over `[]`. -/
theorem summaryCount_nil : summaryCount [] = 0 := rfl

/-- `summaryCount` over a cons. -/
theorem summaryCount_cons (e : DapEvent) (evs : List DapEvent) :
    summaryCount (e :: evs) =
      summaryCount evs + (if e = .outputSummary then 1 else 0) := by
  unfold summaryCount
  rw [List.countP_cons]
  simp

/-- `summaryCount` over an append. -/
theorem summaryCount_append (a b : List DapEvent) :
    summaryCount (a ++ b) = summaryCount a + summaryCount b := by
  unfold summaryCount
  exact List.countP_append _ _ _

/-- One request emits the summary exactly when it flips the
`terminationMessageSent` latch. -/
theorem handleRequest_summary (s : SessionState) (r : Request) :
    summaryCount (handleRequest s r).2 +
      (if s.terminationMessageSent then 1 else 0) =
      (if (handleRequest s r).1.terminationMessageSent then 1 else 0) := by
  have hemit : ∀ s' : SessionState,
      summaryCount (emitTerminationOutput s').2 +
        (if s'.terminationMessageSent then 1 else 0) = 1 ∧
      (emitTerminationOutput s').1.terminationMessageSent = true := by
    intro s'
    unfold emitTerminationOutput
    cases hs : s'.terminationMessageSent <;>
      simp [hs, summaryCount_cons, summaryCount_nil]
  have hpost : ∀ (s' : SessionState) (result : StepResult),
      summaryCount (postStep s' result).2 +
        (if s'.terminationMessageSent then 1 else 0) =
        (if (postStep s' result).1.terminationMessageSent then 1 else 0) := by
    intro s' result
    unfold postStep
    by_cases ht : result.terminated = true
    · obtain ⟨h1, h2⟩ := hemit s'
      rw [if_pos ht]
      dsimp only
      rw [summaryCount_append, h2, summaryCount_cons, summaryCount_nil]
      simp
      omega
    · rw [if_neg ht]
      rw [summaryCount_cons, summaryCount_nil]
      simp
  have hstop : ∀ (s' : SessionState) (reason : String),
      summaryCount (stopWithReason s' reason).2 +
        (if s'.terminationMessageSent then 1 else 0) =
        (if (stopWithReason s' reason).1.terminationMessageSent then 1
          else 0) := by
    intro s' reason
    unfold stopWithReason
    by_cases ht : isTerminated s'.rt = true
    · obtain ⟨h1, h2⟩ := hemit s'
      rw [if_pos ht]
      dsimp only
      rw [summaryCount_append, h2, summaryCount_cons, summaryCount_nil]
      simp
      omega
    · rw [if_neg ht]
      rw [summaryCount_cons, summaryCount_nil]
      simp
  cases r with
  | launchStop => exact hstop s "entry"
  | next => exact hpost _ _
  | cont => exact hpost _ _
  | stepIn =>
    dsimp only [handleRequest]
    unfold performNoopStep
    split <;> simp [summaryCount_cons, summaryCount_nil]
  | stepOut =>
    dsimp only [handleRequest]
    unfold performNoopStep
    split <;> simp [summaryCount_cons, summaryCount_nil]
  | stepBack =>
    dsimp only [handleRequest]
    simp [summaryCount_cons, summaryCount_nil]
  | reverseContinue =>
    dsimp only [handleRequest]
    simp [summaryCount_cons, summaryCount_nil]
  | restartFrame frameId =>
    dsimp only [handleRequest]
    simp [summaryCount_cons, summaryCount_nil]
  | setBps sourcePath lines =>
    dsimp only [handleRequest]
    simp [summaryCount_nil]
  | terminate =>
    dsimp only [handleRequest]
    by_cases ht : isTerminated s.rt = true
    · obtain ⟨h1, h2⟩ := hemit s
      rw [if_pos ht]
      dsimp only
      rw [summaryCount_append, h2, summaryCount_cons, summaryCount_nil]
      simp
      omega
    · rw [if_neg ht]
      rw [summaryCount_cons, summaryCount_nil]
      simp

/-- A request sequence emits the summary exactly when it flips the latch. -/
theorem runSession_summary (rs : List Request) : ∀ s : SessionState,
    summaryCount (runSession s rs).2 +
      (if s.terminationMessageSent then 1 else 0) =
      (if (runSession s rs).1.terminationMessageSent then 1 else 0) := by
  induction rs with
  | nil =>
    intro s
    simp [runSession, summaryCount_nil]
  | cons r rest ih =>
    intro s
    have h1 := handleRequest_summary s r
    have h2 := ih (handleRequest s r).1
    simp only [runSession]
    rw [summaryCount_append]
    omega

/-- `runSession` over an appended request list splits state and trace. -/
theorem runSession_append (l1 l2 : List Request) : ∀ s : SessionState,
    runSession s (l1 ++ l2) =
      ((runSession (runSession s l1).1 l2).1,
        (runSession s l1).2 ++ (runSession (runSession s l1).1 l2).2) := by
  induction l1 with
  | nil =>
    intro s
    simp [runSession]
  | cons r rest ih =>
    intro s
    rw [List.cons_append]
    simp only [runSession]
    rw [ih (handleRequest s r).1, List.append_assoc]

/-- A `postStep` that fires the terminate signal emitted, in order, the
summary (unless already latched) and then the signal. -/
theorem postStep_terminated_events (s : SessionState) (result : StepResult)
    (hmem : DapEvent.terminatedSignal ∈ (postStep s result).2) :
    (postStep s result).2 =
      (if s.terminationMessageSent then [] else [DapEvent.outputSummary]) ++
        [DapEvent.terminatedSignal] ∧
    (postStep s result).1.terminationMessageSent = true := by
  unfold postStep at *
  by_cases ht : result.terminated = true
  · rw [if_pos ht] at *
    unfold emitTerminationOutput at *
    cases hs : s.terminationMessageSent <;> simp [hs]
  · rw [if_neg ht] at hmem
    simp at hmem

/-- C6 (amended): over every request sequence from a launched session whose
summary is not yet sent, at most one summary line is ever emitted; whenever
a `next` or `continue` request fires the terminate signal, exactly one
summary line has been emitted in the whole trace before that signal (which
is the request's last event); an explicit terminate on a not-yet-terminated
session fires the terminate signal alone with no summary line; and an
explicit terminate on an already-terminated session whose summary was
already emitted re-fires the signal without a duplicate summary. -/
theorem c6_termination_summary_accounting (s0 : SessionState)
    (h0 : s0.terminationMessageSent = false) (pre : List Request)
    (r : Request) :
    summaryCount (runSession s0 (pre ++ [r])).2 ≤ 1 ∧
    ((r = .next ∨ r = .cont) →
      DapEvent.terminatedSignal ∈ (handleRequest (runSession s0 pre).1 r).2 →
      summaryCount ((runSession s0 pre).2 ++
        (handleRequest (runSession s0 pre).1 r).2) = 1 ∧
      (handleRequest (runSession s0 pre).1 r).2.getLast? =
        some DapEvent.terminatedSignal) ∧
    (isTerminated (runSession s0 pre).1.rt = false →
      handleRequest (runSession s0 pre).1 .terminate =
        ((runSession s0 pre).1, [DapEvent.terminatedSignal])) ∧
    (isTerminated (runSession s0 pre).1.rt = true →
      (runSession s0 pre).1.terminationMessageSent = true →
      handleRequest (runSession s0 pre).1 .terminate =
        ((runSession s0 pre).1, [DapEvent.terminatedSignal])) := by
  have hpre := runSession_summary pre s0
  rw [h0] at hpre
  simp only [if_neg Bool.false_ne_true] at hpre
  refine ⟨?_, ?_, ?_, ?_⟩
  · have hall := runSession_summary (pre ++ [r]) s0
    rw [h0] at hall
    simp only [if_neg Bool.false_ne_true] at hall
    cases hfin : (runSession s0 (pre ++ [r])).1.terminationMessageSent <;>
      rw [hfin] at hall <;> simp at hall <;> omega
  · intro hr hmem
    have hposted : (handleRequest (runSession s0 pre).1 r).2 =
        (if (runSession s0 pre).1.terminationMessageSent then []
          else [DapEvent.outputSummary]) ++ [DapEvent.terminatedSignal] := by
      rcases hr with hr | hr <;> subst hr <;>
        exact (postStep_terminated_events _ _ hmem).1
    constructor
    · rw [summaryCount_append, hposted, summaryCount_append,
        summaryCount_cons, summaryCount_nil]
      cases hs : (runSession s0 pre).1.terminationMessageSent <;>
        rw [hs] at hpre <;> simp at hpre <;>
        simp [hpre, summaryCount_cons, summaryCount_nil]
    · rw [hposted]
      exact List.getLast?_concat _
  · intro hterm
    dsimp only [handleRequest]
    rw [if_neg (by rw [hterm]; exact Bool.false_ne_true)]
  · intro hterm hsent
    dsimp only [handleRequest]
    rw [if_pos hterm]
    unfold emitTerminationOutput
    rw [if_pos hsent]
    rfl

/-- C6 witness: the accounting evaluated on the 1-frame live session for the
single request `next` (which terminates it). -/
theorem c6_termination_summary_accounting_witness :
    summaryCount (runSession liveSession1 ([] ++ [Request.next])).2 ≤ 1 ∧
    ((Request.next = .next ∨ Request.next = .cont) →
      DapEvent.terminatedSignal ∈
        (handleRequest (runSession liveSession1 []).1 Request.next).2 →
      summaryCount ((runSession liveSession1 []).2 ++
        (handleRequest (runSession liveSession1 []).1 Request.next).2) = 1 ∧
      (handleRequest (runSession liveSession1 []).1 Request.next).2.getLast? =
        some DapEvent.terminatedSignal) ∧
    (isTerminated (runSession liveSession1 []).1.rt = false →
      handleRequest (runSession liveSession1 []).1 .terminate =
        ((runSession liveSession1 []).1, [DapEvent.terminatedSignal])) ∧
    (isTerminated (runSession liveSession1 []).1.rt = true →
      (runSession liveSession1 []).1.terminationMessageSent = true →
      handleRequest (runSession liveSession1 []).1 .terminate =
        ((runSession liveSession1 []).1, [DapEvent.terminatedSignal])) :=
  c6_termination_summary_accounting liveSession1 rfl [] Request.next

/-- C6 counterexample: an explicit terminate request on a live (not yet
terminated) session fires the terminate signal with zero summary lines
emitted before it, contradicting "whenever a terminate signal fires,
exactly one summary line has been emitted before it". -/
theorem c6_counterexample_live_terminate :
    isTerminated liveSession1.rt = false ∧
    liveSession1.terminationMessageSent = false ∧
    (runSession liveSession1 [.launchStop, .terminate]).2 =
      [DapEvent.stoppedWith "entry", DapEvent.terminatedSignal] ∧
    summaryCount (runSession liveSession1 [.launchStop, .terminate]).2 = 0 := by
  decide

end ErrorReplay
